import Mathlib

/-!
Verification model of `build_scores.py`, a one-file pipeline that fetches
BTC market data, derives four normalized scores, and maintains three flat
files (a cumulative signals CSV, a monthly CSV, and a latest-snapshot file).

Modelling conventions:
  * Python floats are modelled as rationals (`ℚ`).  The only genuinely
    irrational operation, the square root inside `statistics.pstdev`, is
    abstracted as an explicit function parameter `sq : ℚ → ℚ`; no claim
    proved below depends on its value.  `round(x, 6)` and the `%.6f`
    formatting are modelled with round-half-to-even on the rational.
  * Python text is modelled as `List Char`.  `datetime.strptime` on the two
    fixed formats is modelled as strptime reads them: 1-2 digit month, day
    and time fields (`%Y` exactly four digits), the format's space matching
    one or more whitespace characters (`\s+`), case-insensitive `T`/`Z`
    literals (strptime compiles with IGNORECASE), and the `datetime`
    constructor's leap-aware calendar validation.  `int()` and `float()`
    are modelled with surrounding-whitespace stripping, one optional sign,
    single underscores between digits, and the case-insensitive
    `inf`/`infinity`/`nan` spellings.  Digits are ASCII digits; the
    non-ASCII Unicode decimal digits `int()`/`float()` additionally accept
    never arise in this repository's data.
  * CSV files are modelled as lists of records (each a list of fields),
    i.e. after the CSV escaping layer, which round-trips in Python.
  * The clock (`datetime.utcnow`) is passed explicitly: each call site of
    the clock in the source receives its own reading.
-/

namespace BuildScores

/-- Python text is modelled as a list of characters. -/
abbrev Str := List Char

/-- The character for decimal digit `d` (meaningful for `d < 10`). -/
def digitChar (d : Nat) : Char := Char.ofNat (48 + d)

/-- Decimal digit test, as used by the textual parsers below. -/
def isDigitC (c : Char) : Bool := 48 ≤ c.toNat && c.toNat ≤ 57

/-- Numeric value of a digit character. -/
def dval (c : Char) : Nat := c.toNat - 48

/-- Two-digit zero-padded rendering (strftime `%m`, `%d`, `%H`, `%M`, `%S`). -/
def pad2 (n : Nat) : Str := [digitChar (n / 10 % 10), digitChar (n % 10)]

/-- Four-digit zero-padded rendering (strftime `%Y`). -/
def pad4 (n : Nat) : Str :=
  [digitChar (n / 1000 % 10), digitChar (n / 100 % 10),
   digitChar (n / 10 % 10), digitChar (n % 10)]

/-- Six-digit zero-padded rendering (the fractional part of `%.6f`). -/
def pad6 (n : Nat) : Str :=
  [digitChar (n / 100000 % 10), digitChar (n / 10000 % 10),
   digitChar (n / 1000 % 10), digitChar (n / 100 % 10),
   digitChar (n / 10 % 10), digitChar (n % 10)]

/-- Decimal rendering of a natural number, most significant digit first. -/
def natChars (n : Nat) : Str :=
  if _h : n < 10 then [digitChar n]
  else natChars (n / 10) ++ [digitChar (n % 10)]
  decreasing_by exact Nat.div_lt_self (by omega) (by omega)

/-- A UTC clock reading at second precision (`datetime.utcnow()`). -/
structure UTCTime where
  year : Nat
  month : Nat
  day : Nat
  hour : Nat
  minute : Nat
  second : Nat
deriving DecidableEq, Repr

/-- Days in a month, with the Gregorian leap rule (as `datetime` validates). -/
def daysInMonth (y m : Nat) : Nat :=
  if m = 2 then
    if y % 4 = 0 && (y % 100 ≠ 0 || y % 400 = 0) then 29 else 28
  else if m = 4 || m = 6 || m = 9 || m = 11 then 30
  else 31

/-- A clock reading representable by `datetime` (year 1..9999, valid date). -/
def validTime (t : UTCTime) : Bool :=
  1 ≤ t.year && t.year ≤ 9999 &&
  1 ≤ t.month && t.month ≤ 12 &&
  1 ≤ t.day && t.day ≤ daysInMonth t.year t.month &&
  t.hour ≤ 23 && t.minute ≤ 59 && t.second ≤ 59

/-- `utc_now_iso`: strftime `"%Y-%m-%dT%H:%M:%SZ"` applied to a clock reading. -/
def utc_now_iso (t : UTCTime) : Str :=
  pad4 t.year ++ '-' :: (pad2 t.month ++ '-' :: (pad2 t.day ++
    'T' :: (pad2 t.hour ++ ':' :: (pad2 t.minute ++ ':' :: (pad2 t.second ++ ['Z'])))))

/-- strftime `"%Y-%m"` applied to a clock reading (used by `write_month_csv`). -/
def ymStr (t : UTCTime) : Str := pad4 t.year ++ '-' :: pad2 t.month

/-- Round half to even to an integer (the rounding of Python `round` and of
`%.6f` formatting, on the rational model). -/
def rnd (x : ℚ) : ℤ :=
  let f := ⌊x⌋
  if x - f < 1 / 2 then f
  else if 1 / 2 < x - f then f + 1
  else if f % 2 = 0 then f else f + 1

/-- `round(x, 6)`: round to six decimal digits. -/
def round6 (x : ℚ) : ℚ := (rnd (x * 1000000) : ℚ) / 1000000

/-- `to_fixed(x)`: the text `f"{x:.6f}"` of a number. -/
def to_fixed (x : ℚ) : Str :=
  let n := (rnd (|x| * 1000000)).toNat
  (if x < 0 then ['-'] else []) ++ natChars (n / 1000000) ++ '.' :: pad6 (n % 1000000)

/-- `norm01(x, lo, hi)`: linear rescale into [0,1], clamped; 0 when hi ≤ lo. -/
def norm01 (x lo hi : ℚ) : ℚ :=
  if hi ≤ lo then 0
  else max 0 (min 1 ((x - lo) / (hi - lo)))

/-- The clamp `max(0.0, min(1.0, x))` used for the weighted score. -/
def clamp01 (x : ℚ) : ℚ := max 0 (min 1 x)

/-- `statistics.fmean`: arithmetic mean (callers guard non-emptiness). -/
def fmean (l : List ℚ) : ℚ := l.sum / l.length

/-- `statistics.pvariance`: population variance. -/
def pvariance (l : List ℚ) : ℚ :=
  (l.map (fun x => (x - fmean l) ^ 2)).sum / l.length

/-- Python `a or b` on numbers: `b` when `a` is zero, else `a`. -/
def pyOr (a b : ℚ) : ℚ := if a = 0 then b else a

/-- Python slice `l[-a:]`. -/
def sliceFrom (l : List ℚ) (a : Nat) : List ℚ := l.drop (l.length - a)

/-- Python slice `l[-a:-b]` (for `0 < b ≤ a`). -/
def sliceNeg (l : List ℚ) (a b : Nat) : List ℚ :=
  (l.drop (l.length - a)).take ((l.length - b) - (l.length - a))

/-- The code points Python treats as whitespace (`str.isspace`, regex `\s`,
and the stripping done by `int()` / `float()`). -/
def wsCodeList : List Nat :=
  [9, 10, 11, 12, 13, 28, 29, 30, 31, 32, 133, 160, 5760,
   8192, 8193, 8194, 8195, 8196, 8197, 8198, 8199, 8200, 8201, 8202,
   8232, 8233, 8239, 8287, 12288]

/-- Whitespace test matching Python's `\s` / `str.isspace`. -/
def isWs (c : Char) : Bool := decide (c.toNat ∈ wsCodeList)

/-- Strip leading and trailing whitespace, as `int()` and `float()` do. -/
def stripWs (s : Str) : Str :=
  ((s.dropWhile isWs).reverse.dropWhile isWs).reverse

/-- Strip one optional leading sign, as `int()` and `float()` accept. -/
def dropSign (s : Str) : Str :=
  match s with
  | [] => []
  | c :: r => if c == '+' || c == '-' then r else c :: r

/-- ASCII lower-casing, for the case-insensitive `inf` / `nan` spellings. -/
def lowerC (c : Char) : Char :=
  if 65 ≤ c.toNat && c.toNat ≤ 90 then Char.ofNat (c.toNat + 32) else c

/-- Continuation of a digit run in which single underscores may separate
digits (Python numeric literals: `_` only between digits). -/
def digitsUndTail : Str → Bool
  | [] => true
  | c :: r =>
    if isDigitC c then digitsUndTail r
    else if c == '_' then
      match r with
      | c2 :: r2 => isDigitC c2 && digitsUndTail r2
      | [] => false
    else false

/-- A non-empty digit run with single underscores allowed between digits,
as `int()` and the digit groups of `float()` accept. -/
def digitsUnd (s : Str) : Bool :=
  match s with
  | [] => false
  | c :: r => isDigitC c && digitsUndTail r

/-- Split off the longest leading run of digit-or-underscore characters
(the raw token a `float()` digit group occupies; validated by `digitsUnd`). -/
def spanDigitsU : Str → Str × Str
  | [] => ([], [])
  | c :: r =>
    if isDigitC c || c == '_' then
      let p := spanDigitsU r
      (c :: p.1, p.2)
    else ([], c :: r)

/-- Value of four digit characters. -/
def four (a b c d : Char) : Nat :=
  1000 * dval a + 100 * dval b + 10 * dval c + dval d

/-- Calendar validity as `datetime.strptime` enforces when building the date
(the regex already guarantees month ≥ 1 and day ≥ 1; the `datetime`
constructor additionally requires year ≥ 1 and day ≤ days-in-month). -/
def dateOk (y m d : Nat) : Bool :=
  1 ≤ y && 1 ≤ m && m ≤ 12 && 1 ≤ d && d ≤ daysInMonth y m

/-- Time-of-day validity as `datetime.strptime` enforces. -/
def timeOk (h mi s : Nat) : Bool := h ≤ 23 && mi ≤ 59 && s ≤ 59

/-- One fixed literal character. -/
def lit (c : Char) (s : Str) : Option Str :=
  match s with
  | [] => none
  | x :: r => if x == c then some r else none

/-- A one-or-two-digit field (strptime `%m`, `%d`, `%H`, `%M`, `%S`).  The
greedy two-digit read is equivalent to the strptime regex alternations
because every character that can follow such a field in the two formats is a
non-digit, so the regex never has to give back a digit. -/
def digits12 (s : Str) : Option (Nat × Str) :=
  match s with
  | [] => none
  | c1 :: r =>
    if isDigitC c1 then
      match r with
      | c2 :: r2 =>
        if isDigitC c2 then some (10 * dval c1 + dval c2, r2)
        else some (dval c1, r)
      | [] => some (dval c1, [])
    else none

/-- strptime `%Y-%m-%d`: exactly four year digits, then `-`, a 1-2 digit
month, `-`, and a 1-2 digit day. -/
def parseYMD (s : Str) : Option (Nat × Nat × Nat × Str) :=
  match s with
  | y1 :: y2 :: y3 :: y4 :: r0 =>
    if isDigitC y1 && isDigitC y2 && isDigitC y3 && isDigitC y4 then
      match lit '-' r0 with
      | none => none
      | some r1 =>
        match digits12 r1 with
        | none => none
        | some (m, r2) =>
          match lit '-' r2 with
          | none => none
          | some r3 =>
            match digits12 r3 with
            | none => none
            | some (d, r4) => some (four y1 y2 y3 y4, m, d, r4)
    else none
  | _ => none

/-- strptime `%H:%M:%S`: 1-2 digit fields separated by colons. -/
def parseHMS (s : Str) : Option (Nat × Nat × Nat × Str) :=
  match digits12 s with
  | none => none
  | some (h, r1) =>
    match lit ':' r1 with
    | none => none
    | some r2 =>
      match digits12 r2 with
      | none => none
      | some (mi, r3) =>
        match lit ':' r3 with
        | none => none
        | some r4 =>
          match digits12 r4 with
          | none => none
          | some (sec, r5) => some (h, mi, sec, r5)

/-- `is_timestamp`: does the text parse under `"%Y-%m-%d %H:%M:%S"` or
`"%Y-%m-%dT%H:%M:%SZ"` the way `datetime.strptime` reads them?  Fields may
be 1 or 2 digits (`%Y` is exactly 4), the space in the first format matches
one or more whitespace characters (strptime rewrites it to `\s+`), the
literals `T` and `Z` match case-insensitively (strptime compiles its regex
with IGNORECASE), out-of-range fields are rejected, and the `datetime`
constructor's calendar check (leap-aware day-of-month, year ≥ 1) applies. -/
def is_timestamp (s : Str) : Bool :=
  match parseYMD s with
  | none => false
  | some (y, m, d, r) =>
    let fmt1 :=
      match r with
      | [] => false
      | c :: r1 =>
        if isWs c then
          match parseHMS (r1.dropWhile isWs) with
          | some (h, mi, sec, rest) => rest.isEmpty && timeOk h mi sec
          | none => false
        else false
    let fmt2 :=
      match r with
      | [] => false
      | c :: r1 =>
        if c == 'T' || c == 't' then
          match parseHMS r1 with
          | some (h, mi, sec, rest) =>
            (match rest with
             | [z] => z == 'Z' || z == 'z'
             | _ => false) && timeOk h mi sec
          | none => false
        else false
    (fmt1 || fmt2) && dateOk y m d

/-- `is_int`: does the text parse under Python `int()`?  Surrounding
whitespace is stripped, one sign is allowed, and the digits may be separated
by single underscores.  (Digits are modelled as ASCII digits; the non-ASCII
Unicode decimal digits `int()` also accepts play no role in this data.) -/
def is_int (s : Str) : Bool :=
  digitsUnd (dropSign (stripWs s))

/-- Optional exponent part of a `float()` literal (empty, or `e`/`E`
followed by an optionally signed underscore-grouped digit run). -/
def expPart (s : Str) : Bool :=
  match s with
  | [] => true
  | c :: r => (c == 'e' || c == 'E') && digitsUnd (dropSign r)

/-- The case-insensitive `inf` / `infinity` / `nan` spellings `float()`
accepts (after sign removal). -/
def isInfNan (s : Str) : Bool :=
  let l := s.map lowerC
  l == "inf".toList || l == "infinity".toList || l == "nan".toList

/-- The numeric body of a `float()` literal: an integer part, a fractional
part after a dot, or both, then an optional exponent; digit groups may use
single underscores between digits. -/
def floatNum (s : Str) : Bool :=
  let p := spanDigitsU s
  match p.2 with
  | [] => digitsUnd p.1
  | c :: r2 =>
    if c == '.' then
      let q := spanDigitsU r2
      (!p.1.isEmpty || !q.1.isEmpty) &&
      (p.1.isEmpty || digitsUnd p.1) && (q.1.isEmpty || digitsUnd q.1) &&
      expPart q.2
    else digitsUnd p.1 && expPart p.2

/-- `is_float`: does the text parse under Python `float()`?  Surrounding
whitespace is stripped, one sign is allowed, and the body is either an
`inf` / `infinity` / `nan` spelling or a numeric literal with optional
underscore digit grouping. -/
def is_float (s : Str) : Bool :=
  let s1 := dropSign (stripWs s)
  isInfNan s1 || floatNum s1

/-- The fixed 10-column header row. -/
def HEADER : List Str :=
  ["timestamp".toList, "pair".toList, "action".toList, "leverage".toList,
   "confidence".toList, "note".toList, "Score_ETF".toList, "Score_Stables".toList,
   "Score_Stress".toList, "Score_Gewichtet".toList]

/-- The per-line acceptance test of `load_and_clean_csv`: exactly 10 fields,
a parseable timestamp in field 1, an integer in field 4, and floats in
fields 5, 7, 8, 9, 10. -/
def validRowB (r : List Str) : Bool :=
  r.length == 10 &&
  is_timestamp (r.getD 0 []) &&
  is_int (r.getD 3 []) &&
  is_float (r.getD 4 []) &&
  is_float (r.getD 6 []) &&
  is_float (r.getD 7 []) &&
  is_float (r.getD 8 []) &&
  is_float (r.getD 9 [])

/-- `load_and_clean_csv`: `none` models a missing file (empty result);
otherwise the first record is skipped unconditionally and each remaining
record is kept, unchanged, exactly when it passes `validRowB`. -/
def load_and_clean_csv (file : Option (List (List Str))) : List (List Str) :=
  match file with
  | none => []
  | some lines => (lines.drop 1).filter validRowB

/-- `write_csv`: the file contents after a rewrite — the header then the rows. -/
def write_csv (rows : List (List Str)) : List (List Str) := HEADER :: rows

/-- The ScoreSet: the four values returned by `compute_scores`. -/
structure Scores where
  Score_ETF : ℚ
  Score_Stables : ℚ
  Score_Stress : ℚ
  Score_Gewichtet : ℚ
deriving DecidableEq, Repr

/-- `sma_prev`: `stats.fmean(closes[-15:-1])`. -/
def sma_prev_of (closes : List ℚ) : ℚ := fmean (sliceNeg closes 15 1)

/-- `sma_now`: `stats.fmean(closes[-14:])`. -/
def sma_now_of (closes : List ℚ) : ℚ := fmean (sliceFrom closes 14)

/-- `mom`: `(sma_now - sma_prev) / max(1e-9, sma_prev)`. -/
def mom_of (closes : List ℚ) : ℚ :=
  (sma_now_of closes - sma_prev_of closes) / max (1 / 1000000000) (sma_prev_of closes)

/-- `rel`: `(delta / max(1e-9, cap)) if cap > 0 else 0.0`. -/
def rel_of (cap delta : ℚ) : ℚ :=
  if 0 < cap then delta / max (1 / 1000000000) cap else 0

/-- `score_stables`: `norm01(-rel, -0.01, 0.01)`. -/
def score_stables_of (cap delta : ℚ) : ℚ :=
  norm01 (-rel_of cap delta) (-(1 / 100)) (1 / 100)

/-- The daily-returns list of `compute_scores`:
`[(closes[i] - closes[i-1]) / max(1e-9, closes[i-1]) for i in range(1, len(closes))]`. -/
def rets_of (closes : List ℚ) : List ℚ :=
  (List.range (closes.length - 1)).map
    (fun i => (closes.getD (i + 1) 0 - closes.getD i 0) / max (1 / 1000000000) (closes.getD i 0))

/-- `fetch_stable_caps`: sums market caps and 24h cap deltas over the
response records (a missing or null field counts as 0), after an early
return of `(0, 0)` when the configured identifier list is empty (in which
case no request is issued and the response plays no role). -/
def fetch_stable_caps (ids : List Str) (resp : List (Option ℚ × Option ℚ)) : ℚ × ℚ :=
  if ids.isEmpty then (0, 0)
  else ((resp.map (fun r => r.1.getD 0)).sum, (resp.map (fun r => r.2.getD 0)).sum)

/-- `compute_scores`, as a function of the fetched payloads: the close and
volume series from the market-chart payload, the summed cap and delta from
the stablecoin payload, the three configured weights, and the abstracted
square root `sq` used by `statistics.pstdev`.  Fails with the
insufficient-data error when either series is shorter than 15. -/
def compute_scores (sq : ℚ → ℚ) (closes vols : List ℚ) (cap delta : ℚ)
    (wE wS wT : ℚ) : Except String Scores :=
  if closes.length < 15 ∨ vols.length < 15 then
    .error "Not enough BTC data from CoinGecko"
  else
    let mom := mom_of closes
    let v14 := sliceFrom vols 14
    let mean_v := fmean v14
    let std_v := pyOr (sq (pvariance v14)) 1
    let z := (vols.getD (vols.length - 1) 0 - mean_v) / std_v
    let imp := (1 / 2) * mom + (1 / 2) * (z / 2)
    let score_etf := norm01 imp (-(3 / 100)) (3 / 100)
    let score_stables := score_stables_of cap delta
    let vol := |pyOr (sq (pvariance (sliceFrom (rets_of closes) 14))) 0|
    let score_stress := norm01 vol (5 / 1000) (3 / 100)
    let score_weighted := clamp01 (wE * score_etf + wS * score_stables + wT * score_stress)
    .ok ⟨round6 score_etf, round6 score_stables, round6 score_stress, round6 score_weighted⟩

/-- `build_new_row`: the 10-field record for one run (`now` is the clock
reading of its `utc_now_iso()` call; `pair`, `action`, `note` come from the
environment). -/
def build_new_row (now : UTCTime) (pair action note : Str) (s : Scores) : List Str :=
  [utc_now_iso now, pair, action, '0' :: [],
   to_fixed s.Score_Gewichtet, note,
   to_fixed s.Score_ETF, to_fixed s.Score_Stables, to_fixed s.Score_Stress,
   to_fixed s.Score_Gewichtet]

/-- `write_signals_csv`: the new contents of `signals.csv` — the sanitized
prior rows with the new row appended, behind the header. -/
def write_signals_csv (file : Option (List (List Str))) (new_row : List Str) :
    List (List Str) :=
  write_csv (load_and_clean_csv file ++ [new_row])

/-- The monthly dedup key `(r[0], r[1], r[2])` = (timestamp, pair, action). -/
def monthKey (r : List Str) : Str × Str × Str :=
  (r.getD 0 [], r.getD 1 [], r.getD 2 [])

/-- The path `reports/YYYY-MM.csv` chosen by `write_month_csv` from a fresh
`datetime.utcnow()` reading. -/
def monthPath (now : UTCTime) : Str :=
  "reports/".toList ++ ymStr now ++ ".csv".toList

/-- The file-contents transformation of `write_month_csv`: sanitize the
existing records, append the new row only when its dedup key is absent,
and rewrite behind the header. -/
def write_month_rows (file : Option (List (List Str))) (new_row : List Str) :
    List (List Str) :=
  let month_rows := load_and_clean_csv file
  if monthKey new_row ∈ month_rows.map monthKey then write_csv month_rows
  else write_csv (month_rows ++ [new_row])

/-- The three stores owned by the program. -/
structure FS where
  signals : Option (List (List Str))
  months : Str → Option (List (List Str))
  latest : Option (UTCTime × Scores)

/-- `main`: compute the scores, and only on success build the record and
perform the three writes.  `now1`, `now2`, `now3` are the successive clock
readings of `build_new_row`, `write_month_csv` and `write_latest_json`; on
the insufficient-data error the state is returned untouched. -/
def mainModel (sq : ℚ → ℚ) (closes vols : List ℚ) (cap delta : ℚ)
    (wE wS wT : ℚ) (now1 now2 now3 : UTCTime) (pair action note : Str)
    (fs : FS) : FS × Except String (List Str × Str) :=
  match compute_scores sq closes vols cap delta wE wS wT with
  | .error e => (fs, .error e)
  | .ok scores =>
    let row := build_new_row now1 pair action note scores
    let fs1 : FS := { fs with signals := some (write_signals_csv fs.signals row) }
    let mp := monthPath now2
    let newMonths : Str → Option (List (List Str)) := fun p =>
      if p = mp then some (write_month_rows (fs1.months mp) row) else fs1.months p
    let fs2 : FS := { fs1 with months := newMonths }
    let fs3 : FS := { fs2 with latest := some (now3, scores) }
    (fs3, .ok (row, mp))

/-! Helper lemmas: numeric bounds. -/

lemma norm01_nonneg (x lo hi : ℚ) : 0 ≤ norm01 x lo hi := by
  unfold norm01
  split
  · exact le_refl 0
  · exact le_max_left 0 _

lemma norm01_le_one (x lo hi : ℚ) : norm01 x lo hi ≤ 1 := by
  unfold norm01
  split
  · norm_num
  · exact max_le (by norm_num) (min_le_left 1 _)

lemma norm01_mono (lo hi : ℚ) {x y : ℚ} (hxy : x ≤ y) :
    norm01 x lo hi ≤ norm01 y lo hi := by
  unfold norm01
  split
  · exact le_refl 0
  · rename_i hlt
    have hpos : 0 < hi - lo := by
      have := not_le.mp hlt
      linarith
    have hdiv : (x - lo) / (hi - lo) ≤ (y - lo) / (hi - lo) :=
      (div_le_div_iff_of_pos_right hpos).mpr (by linarith)
    exact max_le_max le_rfl (min_le_min le_rfl hdiv)

lemma norm01_at_lo {lo hi : ℚ} (h : lo < hi) : norm01 lo lo hi = 0 := by
  unfold norm01
  rw [if_neg (not_le.mpr h)]
  norm_num

lemma norm01_at_hi {lo hi : ℚ} (h : lo < hi) : norm01 hi lo hi = 1 := by
  unfold norm01
  rw [if_neg (not_le.mpr h), div_self (sub_ne_zero.mpr (ne_of_gt h))]
  norm_num

lemma clamp01_nonneg (x : ℚ) : 0 ≤ clamp01 x := le_max_left 0 _

lemma clamp01_le_one (x : ℚ) : clamp01 x ≤ 1 :=
  max_le (by norm_num) (min_le_left 1 _)

lemma rnd_nonneg {x : ℚ} (h : 0 ≤ x) : 0 ≤ rnd x := by
  have hf : (0 : ℤ) ≤ ⌊x⌋ := Int.floor_nonneg.mpr h
  unfold rnd
  dsimp only
  split
  · exact hf
  · split
    · omega
    · split <;> omega

lemma rnd_le {x : ℚ} {n : ℤ} (h : x ≤ (n : ℚ)) : rnd x ≤ n := by
  have hf : ⌊x⌋ ≤ n := by
    calc ⌊x⌋ ≤ ⌊(n : ℚ)⌋ := Int.floor_mono h
    _ = n := Int.floor_intCast n
  unfold rnd
  dsimp only
  split
  · exact hf
  · rename_i h1
    push_neg at h1
    have hlt : ⌊x⌋ < n := by
      rcases lt_or_eq_of_le hf with hc | hc
      · exact hc
      · exfalso
        have hx1 : (n : ℚ) ≤ x := by
          rw [← hc]
          exact Int.floor_le x
        have hx : x = (n : ℚ) := le_antisymm h hx1
        rw [hx, ← hc] at h1
        simp at h1
        linarith
    split
    · omega
    · split <;> omega

lemma round6_nonneg {x : ℚ} (h : 0 ≤ x) : 0 ≤ round6 x := by
  unfold round6
  have h1 : (0 : ℤ) ≤ rnd (x * 1000000) := rnd_nonneg (by positivity)
  have h2 : (0 : ℚ) ≤ (rnd (x * 1000000) : ℚ) := by exact_mod_cast h1
  positivity

lemma round6_le_one {x : ℚ} (h : x ≤ 1) : round6 x ≤ 1 := by
  unfold round6
  have h1 : x * 1000000 ≤ ((1000000 : ℤ) : ℚ) := by
    push_cast
    linarith
  have h2 : rnd (x * 1000000) ≤ 1000000 := rnd_le h1
  rw [div_le_one (by norm_num)]
  exact_mod_cast h2

/-! Helper lemmas: list slices and sums. -/

lemma sum_take_eq (l : List ℚ) (n : Nat) (h : n ≤ l.length) :
    (l.take n).sum = ∑ i in Finset.range n, l.getD i 0 := by
  induction l generalizing n with
  | nil =>
    simp at h
    subst h
    simp
  | cons a t ih =>
    cases n with
    | zero => simp
    | succ m =>
      rw [List.take_succ_cons, List.sum_cons, Finset.sum_range_succ',
        ih m (by simpa using h)]
      simp [add_comm]

lemma getD_drop_q (l : List ℚ) (k i : Nat) :
    (l.drop k).getD i 0 = l.getD (k + i) 0 := by
  induction l generalizing k with
  | nil => simp
  | cons a t ih =>
    cases k with
    | zero => simp
    | succ j =>
      simp only [List.drop_succ_cons]
      rw [ih j]
      have : j + 1 + i = (j + i) + 1 := by omega
      rw [this]
      rfl

lemma sum_slice (l : List ℚ) (k n : Nat) (h : k + n ≤ l.length) :
    ((l.drop k).take n).sum = ∑ i in Finset.range n, l.getD (k + i) 0 := by
  rw [sum_take_eq _ n (by simp; omega)]
  exact Finset.sum_congr rfl fun i _ => getD_drop_q l k i

/-! Helper lemmas: digits and textual parsers. -/

lemma isDigitC_digitChar {d : Nat} (h : d < 10) : isDigitC (digitChar d) = true := by
  interval_cases d <;> decide

lemma dval_digitChar {d : Nat} (h : d < 10) : dval (digitChar d) = d := by
  interval_cases d <;> decide

@[simp] lemma isDigitC_digitChar_mod (n : Nat) : isDigitC (digitChar (n % 10)) = true :=
  isDigitC_digitChar (Nat.mod_lt _ (by norm_num))

@[simp] lemma dval_digitChar_mod (n : Nat) : dval (digitChar (n % 10)) = n % 10 :=
  dval_digitChar (Nat.mod_lt _ (by norm_num))

lemma digitChar_inj {a b : Nat} (ha : a < 10) (hb : b < 10)
    (h : digitChar a = digitChar b) : a = b := by
  have hd := congrArg dval h
  rwa [dval_digitChar ha, dval_digitChar hb] at hd

lemma four_pad (y : Nat) (h : y ≤ 9999) :
    four (digitChar (y / 1000 % 10)) (digitChar (y / 100 % 10))
      (digitChar (y / 10 % 10)) (digitChar (y % 10)) = y := by
  unfold four
  rw [dval_digitChar (Nat.mod_lt _ (by norm_num)), dval_digitChar (Nat.mod_lt _ (by norm_num)),
    dval_digitChar (Nat.mod_lt _ (by norm_num)), dval_digitChar (Nat.mod_lt _ (by norm_num))]
  omega

lemma pad6_all (n : Nat) : (pad6 n).all isDigitC = true := by
  simp [pad6]

lemma natChars_ne_nil (n : Nat) : natChars n ≠ [] := by
  rw [natChars]
  split
  · simp
  · simp

lemma natChars_all (n : Nat) : (natChars n).all isDigitC = true := by
  induction n using Nat.strong_induction_on with
  | _ n ih =>
    rw [natChars]
    split
    · rename_i h
      simp [isDigitC_digitChar h]
    · rename_i h
      rw [List.all_append]
      have h10 : n / 10 < n := Nat.div_lt_self (by omega) (by omega)
      simp [ih _ h10]

lemma spanDigitsU_all {xs : Str} (h : xs.all isDigitC = true) :
    spanDigitsU xs = (xs, []) := by
  induction xs with
  | nil => rfl
  | cons c r ih =>
    simp only [List.all_cons, Bool.and_eq_true] at h
    simp [spanDigitsU, h.1, ih h.2]

lemma spanDigitsU_stop {xs : Str} (y : Char) (ys : Str)
    (h : xs.all isDigitC = true) (hy : (isDigitC y || y == '_') = false) :
    spanDigitsU (xs ++ y :: ys) = (xs, y :: ys) := by
  induction xs with
  | nil => simp [spanDigitsU, hy]
  | cons c r ih =>
    simp only [List.all_cons, Bool.and_eq_true] at h
    simp [spanDigitsU, h.1, ih h.2]

lemma digitsUndTail_of_digits {s : Str} (h : s.all isDigitC = true) :
    digitsUndTail s = true := by
  induction s with
  | nil => rfl
  | cons c r ih =>
    simp only [List.all_cons, Bool.and_eq_true] at h
    unfold digitsUndTail
    simp [h.1, ih h.2]

lemma digitsUnd_of_digits {s : Str} (hne : s ≠ []) (h : s.all isDigitC = true) :
    digitsUnd s = true := by
  cases s with
  | nil => exact absurd rfl hne
  | cons c r =>
    simp only [List.all_cons, Bool.and_eq_true] at h
    simp [digitsUnd, h.1, digitsUndTail_of_digits h.2]

lemma isWs_of_digit {c : Char} (h : isDigitC c = true) : isWs c = false := by
  unfold isDigitC at h
  simp only [Bool.and_eq_true, decide_eq_true_eq] at h
  unfold isWs
  rw [decide_eq_false_iff_not]
  unfold wsCodeList
  intro hmem
  simp only [List.mem_cons, List.not_mem_nil, or_false] at hmem
  omega

lemma all_not_ws_of_digits {l : Str} (h : l.all isDigitC = true) :
    l.all (fun c => !isWs c) = true := by
  induction l with
  | nil => rfl
  | cons c r ih =>
    simp only [List.all_cons, Bool.and_eq_true] at h ⊢
    exact ⟨by simp [isWs_of_digit h.1], ih h.2⟩

lemma dropWhile_ws_eq_self {l : Str} (h : l.all (fun c => !isWs c) = true) :
    l.dropWhile isWs = l := by
  cases l with
  | nil => rfl
  | cons c r =>
    simp only [List.all_cons, Bool.and_eq_true] at h
    have hc : isWs c = false := by
      have h1 := h.1
      simp at h1
      exact h1
    simp [List.dropWhile_cons, hc]

lemma stripWs_of_no_ws {s : Str} (h : s.all (fun c => !isWs c) = true) :
    stripWs s = s := by
  unfold stripWs
  rw [dropWhile_ws_eq_self h, dropWhile_ws_eq_self (by rw [List.all_reverse]; exact h),
    List.reverse_reverse]

lemma beq_plus_of_digit {c : Char} (h : isDigitC c = true) : (c == '+') = false := by
  cases hc : c == '+'
  · rfl
  · rw [beq_iff_eq] at hc
    subst hc
    exact absurd h (by decide)

lemma beq_minus_of_digit {c : Char} (h : isDigitC c = true) : (c == '-') = false := by
  cases hc : c == '-'
  · rfl
  · rw [beq_iff_eq] at hc
    subst hc
    exact absurd h (by decide)

lemma dropSign_cons_digit {c : Char} (r : Str) (h : isDigitC c = true) :
    dropSign (c :: r) = c :: r := by
  simp [dropSign, beq_plus_of_digit h, beq_minus_of_digit h]

lemma is_float_digits_dot (a b : Str) (ha : a.all isDigitC = true) (hane : a ≠ [])
    (hb : b.all isDigitC = true) :
    is_float (a ++ '.' :: b) = true ∧ is_float ('-' :: (a ++ '.' :: b)) = true := by
  have hdot : (isDigitC '.' || '.' == '_') = false := by decide
  have hspanA : spanDigitsU (a ++ '.' :: b) = (a, '.' :: b) := spanDigitsU_stop _ _ ha hdot
  have hspanB : spanDigitsU b = (b, []) := spanDigitsU_all hb
  have hallA : (a ++ '.' :: b).all (fun c => !isWs c) = true := by
    rw [List.all_append]
    simp only [List.all_cons, Bool.and_eq_true]
    exact ⟨all_not_ws_of_digits ha, by decide, all_not_ws_of_digits hb⟩
  have hbOr : (b.isEmpty || digitsUnd b) = true := by
    cases b with
    | nil => rfl
    | cons x xs => simp [digitsUnd_of_digits (by simp) hb]
  obtain ⟨c, r, rfl⟩ : ∃ c r, a = c :: r := by
    cases a with
    | nil => exact absurd rfl hane
    | cons c r => exact ⟨c, r, rfl⟩
  have hc : isDigitC c = true := by
    simp only [List.all_cons, Bool.and_eq_true] at ha
    exact ha.1
  have hnum : floatNum ((c :: r) ++ '.' :: b) = true := by
    unfold floatNum
    simp only [hspanA]
    simp [hspanB, expPart, digitsUnd_of_digits (by simp : c :: r ≠ []) ha, hbOr]
  constructor
  · unfold is_float
    rw [stripWs_of_no_ws hallA]
    rw [show (c :: r) ++ '.' :: b = c :: (r ++ '.' :: b) from rfl] at hnum ⊢
    rw [dropSign_cons_digit _ hc]
    simp [hnum]
  · unfold is_float
    have hallB : ('-' :: ((c :: r) ++ '.' :: b)).all (fun x => !isWs x) = true := by
      simp only [List.all_cons, Bool.and_eq_true]
      exact ⟨by decide, hallA⟩
    rw [stripWs_of_no_ws hallB]
    rw [show dropSign ('-' :: ((c :: r) ++ '.' :: b)) = (c :: r) ++ '.' :: b from by
      simp [dropSign]]
    simp only [List.cons_append] at hnum
    simp [hnum]

lemma is_float_to_fixed (x : ℚ) : is_float (to_fixed x) = true := by
  unfold to_fixed
  have h := is_float_digits_dot (natChars ((rnd (|x| * 1000000)).toNat / 1000000))
    (pad6 ((rnd (|x| * 1000000)).toNat % 1000000)) (natChars_all _) (natChars_ne_nil _)
    (pad6_all _)
  by_cases hx : x < 0
  · rw [if_pos hx]
    simpa using h.2
  · rw [if_neg hx]
    simpa using h.1

lemma validTime_spec {t : UTCTime} (h : validTime t = true) :
    1 ≤ t.year ∧ t.year ≤ 9999 ∧ 1 ≤ t.month ∧ t.month ≤ 12 ∧ 1 ≤ t.day ∧
    t.day ≤ daysInMonth t.year t.month ∧ t.hour ≤ 23 ∧ t.minute ≤ 59 ∧ t.second ≤ 59 := by
  simp only [validTime, Bool.and_eq_true, decide_eq_true_eq] at h
  tauto

lemma daysInMonth_le (y m : Nat) : daysInMonth y m ≤ 31 := by
  unfold daysInMonth
  split
  · split <;> omega
  · split <;> omega

lemma lit_self (c : Char) (r : Str) : lit c (c :: r) = some r := by
  simp [lit]

lemma digits12_pad2 (n : Nat) (rest : Str) (h : n ≤ 99) :
    digits12 (pad2 n ++ rest) = some (n, rest) := by
  unfold pad2 digits12
  simp only [List.cons_append, List.nil_append, isDigitC_digitChar_mod, if_true,
    dval_digitChar_mod]
  have hval : 10 * (n / 10 % 10) + n % 10 = n := by omega
  rw [hval]

lemma parseYMD_pad (y m d : Nat) (rest : Str) (hy : y ≤ 9999) (hm : m ≤ 99)
    (hd : d ≤ 99) :
    parseYMD (pad4 y ++ '-' :: (pad2 m ++ '-' :: (pad2 d ++ rest))) =
      some (y, m, d, rest) := by
  unfold pad4 parseYMD
  simp only [List.cons_append, List.nil_append, isDigitC_digitChar_mod, Bool.and_self,
    if_true, lit_self, digits12_pad2 m ('-' :: (pad2 d ++ rest)) hm,
    digits12_pad2 d rest hd]
  rw [four_pad y hy]

lemma parseHMS_pad (h mi s : Nat) (rest : Str) (hh : h ≤ 99) (hmi : mi ≤ 99)
    (hs : s ≤ 99) :
    parseHMS (pad2 h ++ ':' :: (pad2 mi ++ ':' :: (pad2 s ++ rest))) =
      some (h, mi, s, rest) := by
  unfold parseHMS
  simp only [digits12_pad2 h (':' :: (pad2 mi ++ ':' :: (pad2 s ++ rest))) hh, lit_self,
    digits12_pad2 mi (':' :: (pad2 s ++ rest)) hmi, digits12_pad2 s rest hs]

lemma is_timestamp_iso {t : UTCTime} (h : validTime t = true) :
    is_timestamp (utc_now_iso t) = true := by
  obtain ⟨hy1, hy2, hm1, hm2, hd1, hd2, hh, hmi, hs⟩ := validTime_spec h
  have hdm : daysInMonth t.year t.month ≤ 31 := daysInMonth_le t.year t.month
  unfold utc_now_iso is_timestamp
  rw [parseYMD_pad t.year t.month t.day
    ('T' :: (pad2 t.hour ++ ':' :: (pad2 t.minute ++ ':' :: (pad2 t.second ++ ['Z']))))
    hy2 (by omega) (by omega)]
  simp only [parseHMS_pad t.hour t.minute t.second (['Z'] : Str) (by omega) (by omega)
    (by omega)]
  simp [dateOk, timeOk, show isWs 'T' = false from by decide, hy1, hm1, hm2, hd1, hd2,
    hh, hmi, hs]

lemma is_int_zero : is_int ['0'] = true := by decide

lemma validRow_build_new_row (now : UTCTime) (pair action note : Str) (s : Scores)
    (h : validTime now = true) :
    validRowB (build_new_row now pair action note s) = true := by
  unfold validRowB build_new_row
  simp [is_timestamp_iso h, is_float_to_fixed, is_int_zero]

/-! Helper lemmas: the CSV store. -/

lemma filter_valid_idem (l : List (List Str)) :
    (l.filter validRowB).filter validRowB = l.filter validRowB := by
  induction l with
  | nil => rfl
  | cons r t ih =>
    by_cases h : validRowB r = true
    · simp [List.filter_cons, h, ih]
    · simp [List.filter_cons, h, ih]

lemma load_write (rows : List (List Str)) :
    load_and_clean_csv (some (write_csv rows)) = rows.filter validRowB := rfl

lemma load_filter_idem (f : Option (List (List Str))) :
    (load_and_clean_csv f).filter validRowB = load_and_clean_csv f := by
  cases f with
  | none => rfl
  | some lines => exact filter_valid_idem _

lemma write_month_eq_pos {f : Option (List (List Str))} {nr : List Str}
    (h : monthKey nr ∈ (load_and_clean_csv f).map monthKey) :
    write_month_rows f nr = write_csv (load_and_clean_csv f) := by
  unfold write_month_rows
  dsimp only
  rw [if_pos h]

lemma write_month_eq_neg {f : Option (List (List Str))} {nr : List Str}
    (h : monthKey nr ∉ (load_and_clean_csv f).map monthKey) :
    write_month_rows f nr = write_csv (load_and_clean_csv f ++ [nr]) := by
  unfold write_month_rows
  dsimp only
  rw [if_neg h]

/-! Helper lemmas: evaluating `compute_scores` on a concrete payload. -/

lemma getD_replicate (n i : Nat) (a d : ℚ) (h : i < n) :
    (List.replicate n a).getD i d = a := by
  induction n generalizing i with
  | zero => omega
  | succ m ih =>
    cases i with
    | zero => simp [List.replicate_succ]
    | succ j =>
      simp only [List.replicate_succ, List.getD_cons_succ]
      exact ih _ (by omega)

lemma fmean_replicate (n : Nat) (a : ℚ) (h : n ≠ 0) :
    fmean (List.replicate n a) = a := by
  unfold fmean
  rw [List.sum_replicate, List.length_replicate, nsmul_eq_mul, mul_comm, mul_div_assoc]
  rw [div_self (by exact_mod_cast h), mul_one]

lemma pvariance_replicate (n : Nat) (a : ℚ) (h : n ≠ 0) :
    pvariance (List.replicate n a) = 0 := by
  unfold pvariance
  rw [fmean_replicate n a h, List.map_replicate]
  simp

lemma sliceFrom_replicate_15 (a : ℚ) :
    sliceFrom (List.replicate 15 a) 14 = List.replicate 14 a := by
  unfold sliceFrom
  norm_num [List.drop_replicate]

lemma sliceNeg_replicate_15 (a : ℚ) :
    sliceNeg (List.replicate 15 a) 15 1 = List.replicate 14 a := by
  unfold sliceNeg
  norm_num [List.drop_replicate, List.take_replicate]

lemma mom_of_ones : mom_of (List.replicate 15 1) = 0 := by
  unfold mom_of sma_prev_of sma_now_of
  rw [sliceNeg_replicate_15, sliceFrom_replicate_15, fmean_replicate 14 1 (by norm_num)]
  simp

lemma rets_of_ones : rets_of (List.replicate 15 1) = List.replicate 14 0 := by
  unfold rets_of
  rw [List.eq_replicate_iff]
  constructor
  · simp
  · intro b hb
    simp only [List.mem_map, List.mem_range, List.length_replicate] at hb
    obtain ⟨i, hi, rfl⟩ := hb
    rw [getD_replicate 15 (i + 1) 1 0 (by omega), getD_replicate 15 i 1 0 (by omega)]
    simp

lemma norm01_zero_sym : norm01 0 (-(3 / 100)) (3 / 100) = 1 / 2 := by
  unfold norm01
  rw [if_neg (by norm_num)]
  norm_num [min_def, max_def]

lemma score_stables_half {cap delta : ℚ} (h : cap ≤ 0) :
    score_stables_of cap delta = 1 / 2 := by
  unfold score_stables_of rel_of
  rw [if_neg (by intro hc; linarith), neg_zero]
  unfold norm01
  rw [if_neg (by norm_num)]
  norm_num [min_def, max_def]

lemma norm01_zero_stress : norm01 0 (1 / 200) (3 / 100) = 0 := by
  unfold norm01
  rw [if_neg (by norm_num)]
  norm_num [min_def, max_def]

lemma round6_zero : round6 0 = 0 := by
  unfold round6 rnd
  norm_num

lemma round6_half : round6 (1 / 2) = 1 / 2 := by
  unfold round6 rnd
  norm_num

lemma clamp01_zero : clamp01 0 = 0 := by
  norm_num [clamp01, min_def, max_def]

lemma sliceFrom_replicate_14_zeros :
    sliceFrom (List.replicate 14 (0 : ℚ)) 14 = List.replicate 14 0 := by
  unfold sliceFrom
  norm_num

lemma getD_replicate_15_ones :
    (List.replicate 15 (1 : ℚ)).getD ((List.replicate 15 (1 : ℚ)).length - 1) 0 = 1 := by
  rw [List.length_replicate]
  exact getD_replicate 15 (15 - 1) 1 0 (by norm_num)

lemma compute_scores_ones :
    compute_scores (fun _ => 0) (List.replicate 15 1) (List.replicate 15 1) 0 3 0 0 0 =
      .ok ⟨1 / 2, 1 / 2, 0, 0⟩ := by
  unfold compute_scores
  rw [if_neg (by decide)]
  simp only [sliceFrom_replicate_15, rets_of_ones, mom_of_ones, getD_replicate_15_ones,
    sliceFrom_replicate_14_zeros,
    pvariance_replicate 14 1 (by norm_num), pvariance_replicate 14 0 (by norm_num),
    fmean_replicate 14 1 (by norm_num)]
  norm_num [pyOr, norm01_zero_sym, norm01_zero_stress, score_stables_half (le_refl (0 : ℚ)),
    clamp01_zero, round6_zero, round6_half]

/-! Claim theorems. -/

/-- C3: for every x and all bounds lo, hi, if hi > lo then `norm01 x lo hi`
lies in [0,1], is monotonically non-decreasing in x, equals 0 at x = lo and
equals 1 at x = hi; and whenever hi ≤ lo it returns 0. -/
theorem C3_normalize_spec (x lo hi : ℚ) :
    (lo < hi →
      (0 ≤ norm01 x lo hi ∧ norm01 x lo hi ≤ 1) ∧
      (∀ y, x ≤ y → norm01 x lo hi ≤ norm01 y lo hi) ∧
      norm01 lo lo hi = 0 ∧ norm01 hi lo hi = 1) ∧
    (hi ≤ lo → norm01 x lo hi = 0) := by
  constructor
  · intro h
    exact ⟨⟨norm01_nonneg x lo hi, norm01_le_one x lo hi⟩,
      fun y hxy => norm01_mono lo hi hxy, norm01_at_lo h, norm01_at_hi h⟩
  · intro h
    unfold norm01
    rw [if_pos h]

/-- C3 witness: the properties evaluated at concrete bounds. -/
theorem C3_normalize_spec_witness :
    (0 ≤ norm01 (1 / 4 : ℚ) 0 1 ∧ norm01 (1 / 4 : ℚ) 0 1 ≤ 1) ∧
    norm01 (0 : ℚ) 0 1 = 0 ∧ norm01 (1 : ℚ) 0 1 = 1 ∧ norm01 (5 : ℚ) 3 2 = 0 := by
  have h := C3_normalize_spec (1 / 4 : ℚ) 0 1
  have h2 := C3_normalize_spec (5 : ℚ) 3 2
  exact ⟨(h.1 (by norm_num)).1, (h.1 (by norm_num)).2.2.1,
    (h.1 (by norm_num)).2.2.2, h2.2 (by norm_num)⟩

/-- C7: for every close series with at least 15 points, `sma_prev` is the
arithmetic mean of the 14 closes at offsets -15 .. -2, `sma_now` is the
arithmetic mean of the 14 closes at offsets -14 .. -1, and
momentum = (sma_now - sma_prev) / max(1e-9, sma_prev). -/
theorem C7_sma_momentum (closes : List ℚ) (h : 15 ≤ closes.length) :
    sma_prev_of closes =
      (∑ i in Finset.range 14, closes.getD (closes.length - 15 + i) 0) / 14 ∧
    sma_now_of closes =
      (∑ i in Finset.range 14, closes.getD (closes.length - 14 + i) 0) / 14 ∧
    mom_of closes = (sma_now_of closes - sma_prev_of closes) /
      max (1 / 1000000000) (sma_prev_of closes) := by
  refine ⟨?_, ?_, rfl⟩
  · unfold sma_prev_of fmean sliceNeg
    have h1 : closes.length - 1 - (closes.length - 15) = 14 := by omega
    rw [h1, sum_slice closes (closes.length - 15) 14 (by omega)]
    have h2 : ((closes.drop (closes.length - 15)).take 14).length = 14 := by
      rw [List.length_take, List.length_drop]
      omega
    rw [h2]
    norm_num
  · unfold sma_now_of fmean sliceFrom
    have h3 : closes.drop (closes.length - 14) =
        (closes.drop (closes.length - 14)).take 14 := by
      rw [List.take_of_length_le]
      rw [List.length_drop]
      omega
    rw [h3, sum_slice closes (closes.length - 14) 14 (by omega)]
    have h4 : ((closes.drop (closes.length - 14)).take 14).length = 14 := by
      rw [List.length_take, List.length_drop]
      omega
    rw [h4]
    norm_num

/-- C7 witness: the slice characterisation at a concrete 15-point series. -/
theorem C7_sma_momentum_witness :
    sma_prev_of (List.replicate 15 (1 : ℚ)) =
      (∑ i in Finset.range 14,
        (List.replicate 15 (1 : ℚ)).getD ((List.replicate 15 (1 : ℚ)).length - 15 + i) 0) / 14 ∧
    sma_now_of (List.replicate 15 (1 : ℚ)) =
      (∑ i in Finset.range 14,
        (List.replicate 15 (1 : ℚ)).getD ((List.replicate 15 (1 : ℚ)).length - 14 + i) 0) / 14 ∧
    mom_of (List.replicate 15 (1 : ℚ)) =
      (sma_now_of (List.replicate 15 (1 : ℚ)) - sma_prev_of (List.replicate 15 (1 : ℚ))) /
        max (1 / 1000000000) (sma_prev_of (List.replicate 15 (1 : ℚ))) :=
  C7_sma_momentum (List.replicate 15 1) (by norm_num)

/-- C2: when the fetched market payload yields fewer than 15 close points or
fewer than 15 volume points, the run fails with the insufficient-data error
and the file state is returned untouched: none of the three stores changes. -/
theorem C2_insufficient_data (sq : ℚ → ℚ) (closes vols : List ℚ)
    (cap delta wE wS wT : ℚ) (now1 now2 now3 : UTCTime)
    (pair action note : Str) (fs : FS)
    (h : closes.length < 15 ∨ vols.length < 15) :
    mainModel sq closes vols cap delta wE wS wT now1 now2 now3 pair action note fs =
      (fs, .error "Not enough BTC data from CoinGecko") := by
  unfold mainModel compute_scores
  rw [if_pos h]

/-- C2 witness: a 1-point close series aborts the run and leaves the
(empty) store state unchanged. -/
theorem C2_insufficient_data_witness :
    mainModel (fun _ => 0) [1] [1] 0 0 0 0 0 ⟨2024, 1, 1, 0, 0, 0⟩ ⟨2024, 1, 1, 0, 0, 0⟩
      ⟨2024, 1, 1, 0, 0, 0⟩ [] [] [] ⟨none, fun _ => none, none⟩ =
      (⟨none, fun _ => none, none⟩, .error "Not enough BTC data from CoinGecko") :=
  C2_insufficient_data (fun _ => 0) [1] [1] 0 0 0 0 0 ⟨2024, 1, 1, 0, 0, 0⟩
    ⟨2024, 1, 1, 0, 0, 0⟩ ⟨2024, 1, 1, 0, 0, 0⟩ [] [] [] ⟨none, fun _ => none, none⟩
    (Or.inl (by norm_num))

/-- C8: for a stablecoin aggregate with total_cap ≤ 0 (in particular the
empty-identifier case, where `fetch_stable_caps` returns (0, 0) without a
request), rel = 0 and Score_Stables = norm01 0 (-0.01) 0.01 = 1/2, with no
division performed; the stored Score_Stables of a successful run is 1/2. -/
theorem C8_stables_zero_cap (cap delta : ℚ) (resp : List (Option ℚ × Option ℚ))
    (sq : ℚ → ℚ) (closes vols : List ℚ) (wE wS wT : ℚ) (s : Scores)
    (h : cap ≤ 0)
    (hok : compute_scores sq closes vols cap delta wE wS wT = .ok s) :
    rel_of cap delta = 0 ∧
    score_stables_of cap delta = norm01 0 (-(1 / 100)) (1 / 100) ∧
    norm01 0 (-(1 / 100)) (1 / 100) = 1 / 2 ∧
    fetch_stable_caps [] resp = (0, 0) ∧
    s.Score_Stables = 1 / 2 := by
  have hrel : rel_of cap delta = 0 := by
    unfold rel_of
    rw [if_neg (not_lt.mpr h)]
  have hsc : score_stables_of cap delta = norm01 0 (-(1 / 100)) (1 / 100) := by
    unfold score_stables_of
    rw [hrel, neg_zero]
  have hval : norm01 0 (-(1 / 100)) (1 / 100) = 1 / 2 := by
    unfold norm01
    rw [if_neg (by norm_num)]
    norm_num [min_def, max_def]
  refine ⟨hrel, hsc, hval, rfl, ?_⟩
  unfold compute_scores at hok
  split at hok
  · exact absurd hok (by simp)
  · simp only [Except.ok.injEq] at hok
    subst hok
    dsimp only
    rw [score_stables_half h, round6_half]

/-- C8 witness: cap = 0 with a nonzero delta at a successful concrete run. -/
theorem C8_stables_zero_cap_witness :
    rel_of 0 3 = 0 ∧
    score_stables_of 0 3 = norm01 0 (-(1 / 100)) (1 / 100) ∧
    norm01 0 (-(1 / 100)) (1 / 100) = 1 / 2 ∧
    fetch_stable_caps [] [(some 5, some 1)] = (0, 0) ∧
    (Scores.mk (1 / 2) (1 / 2) 0 0).Score_Stables = 1 / 2 :=
  C8_stables_zero_cap 0 3 [(some 5, some 1)] (fun _ => 0) (List.replicate 15 1)
    (List.replicate 15 1) 0 0 0 ⟨1 / 2, 1 / 2, 0, 0⟩ (le_refl 0) compute_scores_ones

/-- C1: every ScoreSet returned by `compute_scores` has all four values in
[0,1], for every payload meeting the length preconditions and every weight
configuration; and `clamp01` of the weighted sum lies in [0,1] whenever the
three component scores do, regardless of the weights. -/
theorem C1_scores_bounded (sq : ℚ → ℚ) (closes vols : List ℚ)
    (cap delta wE wS wT : ℚ) :
    (∀ s : Scores, compute_scores sq closes vols cap delta wE wS wT = .ok s →
      (0 ≤ s.Score_ETF ∧ s.Score_ETF ≤ 1) ∧
      (0 ≤ s.Score_Stables ∧ s.Score_Stables ≤ 1) ∧
      (0 ≤ s.Score_Stress ∧ s.Score_Stress ≤ 1) ∧
      (0 ≤ s.Score_Gewichtet ∧ s.Score_Gewichtet ≤ 1)) ∧
    (∀ a b c : ℚ, 0 ≤ a → a ≤ 1 → 0 ≤ b → b ≤ 1 → 0 ≤ c → c ≤ 1 →
      0 ≤ clamp01 (wE * a + wS * b + wT * c) ∧
      clamp01 (wE * a + wS * b + wT * c) ≤ 1) := by
  constructor
  · intro s hok
    unfold compute_scores at hok
    split at hok
    · exact absurd hok (by simp)
    · simp only [Except.ok.injEq] at hok
      subst hok
      dsimp only
      refine ⟨⟨round6_nonneg (norm01_nonneg _ _ _), round6_le_one (norm01_le_one _ _ _)⟩,
        ⟨round6_nonneg ?_, round6_le_one ?_⟩,
        ⟨round6_nonneg (norm01_nonneg _ _ _), round6_le_one (norm01_le_one _ _ _)⟩,
        ⟨round6_nonneg (clamp01_nonneg _), round6_le_one (clamp01_le_one _)⟩⟩
      · unfold score_stables_of
        exact norm01_nonneg _ _ _
      · unfold score_stables_of
        exact norm01_le_one _ _ _
  · intro a b c h1 h2 h3 h4 h5 h6
    exact ⟨clamp01_nonneg _, clamp01_le_one _⟩

/-- C1 witness: the bounds at a successful concrete run, and the clamp at
concrete component scores. -/
theorem C1_scores_bounded_witness :
    ((0 ≤ (Scores.mk (1 / 2) (1 / 2) 0 0).Score_ETF ∧
        (Scores.mk (1 / 2) (1 / 2) 0 0).Score_ETF ≤ 1) ∧
      (0 ≤ (Scores.mk (1 / 2) (1 / 2) 0 0).Score_Stables ∧
        (Scores.mk (1 / 2) (1 / 2) 0 0).Score_Stables ≤ 1) ∧
      (0 ≤ (Scores.mk (1 / 2) (1 / 2) 0 0).Score_Stress ∧
        (Scores.mk (1 / 2) (1 / 2) 0 0).Score_Stress ≤ 1) ∧
      (0 ≤ (Scores.mk (1 / 2) (1 / 2) 0 0).Score_Gewichtet ∧
        (Scores.mk (1 / 2) (1 / 2) 0 0).Score_Gewichtet ≤ 1)) ∧
    (0 ≤ clamp01 (0 * (1 / 2) + 0 * 1 + 0 * 0) ∧
      clamp01 (0 * (1 / 2) + 0 * 1 + 0 * 0) ≤ 1) :=
  ⟨(C1_scores_bounded (fun _ => 0) (List.replicate 15 1) (List.replicate 15 1)
      0 3 0 0 0).1 ⟨1 / 2, 1 / 2, 0, 0⟩ compute_scores_ones,
    (C1_scores_bounded (fun _ => 0) (List.replicate 15 1) (List.replicate 15 1)
      0 3 0 0 0).2 (1 / 2) 1 0 (by norm_num) (by norm_num) (by norm_num)
      (by norm_num) (by norm_num) (by norm_num)⟩

/-- C6: `load_and_clean_csv` keeps a non-header record iff it has exactly 10
fields, a parseable timestamp in field 1, an integer in field 4 and floats in
fields 5, 7, 8, 9, 10; failing records are dropped and absent from the data
rows of the rewritten file; kept records are returned unchanged (the result
is a sublist of the input records). -/
theorem C6_sanitizer_filter (lines : List (List Str)) (r : List Str) :
    (validRowB r = true ↔
      r.length = 10 ∧ is_timestamp (r.getD 0 []) = true ∧ is_int (r.getD 3 []) = true ∧
      is_float (r.getD 4 []) = true ∧ is_float (r.getD 6 []) = true ∧
      is_float (r.getD 7 []) = true ∧ is_float (r.getD 8 []) = true ∧
      is_float (r.getD 9 []) = true) ∧
    (r ∈ load_and_clean_csv (some lines) ↔ r ∈ lines.drop 1 ∧ validRowB r = true) ∧
    (validRowB r = false → r ∉ (write_csv (load_and_clean_csv (some lines))).drop 1) ∧
    List.Sublist (load_and_clean_csv (some lines)) (lines.drop 1) := by
  refine ⟨?_, ?_, ?_, ?_⟩
  · unfold validRowB
    simp only [Bool.and_eq_true, beq_iff_eq]
    tauto
  · unfold load_and_clean_csv
    simp [List.mem_filter]
  · intro hv hmem
    simp only [write_csv, List.drop_succ_cons, List.drop_zero] at hmem
    unfold load_and_clean_csv at hmem
    rw [List.mem_filter, hv] at hmem
    exact absurd hmem.2 (by simp)
  · exact List.filter_sublist _

/-- C6 witness: a valid row is kept and a 1-field row is dropped from a
concrete file. -/
theorem C6_sanitizer_filter_witness :
    ["2024-01-01 00:00:00".toList, "BTC/CHF".toList, "hold".toList, "0".toList,
      "0.5".toList, "n".toList, "0.1".toList, "0.2".toList, "0.3".toList, "0.4".toList] ∈
      load_and_clean_csv (some [HEADER,
        ["2024-01-01 00:00:00".toList, "BTC/CHF".toList, "hold".toList, "0".toList,
          "0.5".toList, "n".toList, "0.1".toList, "0.2".toList, "0.3".toList, "0.4".toList],
        ["x".toList]]) ∧
    ["x".toList] ∉ (write_csv (load_and_clean_csv (some [HEADER,
        ["2024-01-01 00:00:00".toList, "BTC/CHF".toList, "hold".toList, "0".toList,
          "0.5".toList, "n".toList, "0.1".toList, "0.2".toList, "0.3".toList, "0.4".toList],
        ["x".toList]]))).drop 1 :=
  ⟨((C6_sanitizer_filter [HEADER,
      ["2024-01-01 00:00:00".toList, "BTC/CHF".toList, "hold".toList, "0".toList,
        "0.5".toList, "n".toList, "0.1".toList, "0.2".toList, "0.3".toList, "0.4".toList],
      ["x".toList]]
      ["2024-01-01 00:00:00".toList, "BTC/CHF".toList, "hold".toList, "0".toList,
        "0.5".toList, "n".toList, "0.1".toList, "0.2".toList, "0.3".toList,
        "0.4".toList]).2.1).mpr ⟨by decide, by decide⟩,
    (C6_sanitizer_filter [HEADER,
      ["2024-01-01 00:00:00".toList, "BTC/CHF".toList, "hold".toList, "0".toList,
        "0.5".toList, "n".toList, "0.1".toList, "0.2".toList, "0.3".toList, "0.4".toList],
      ["x".toList]] ["x".toList]).2.2.1 (by decide)⟩

/-- C5: the row built by `build_new_row` (for any ScoreSet and any
representable clock reading) passes every sanitizer check, and rewriting the
cumulative log then re-loading it reproduces the sanitized prior rows with
the new row appended, its 10 field values unchanged. -/
theorem C5_roundtrip (now : UTCTime) (pair action note : Str) (s : Scores)
    (file : Option (List (List Str))) (h : validTime now = true) :
    validRowB (build_new_row now pair action note s) = true ∧
    load_and_clean_csv (some (write_signals_csv file (build_new_row now pair action note s))) =
      load_and_clean_csv file ++ [build_new_row now pair action note s] := by
  have hv := validRow_build_new_row now pair action note s h
  refine ⟨hv, ?_⟩
  unfold write_signals_csv
  rw [load_write, List.filter_append, load_filter_idem]
  simp [hv]

/-- C5 witness: the round trip on an initially missing file at a concrete
clock reading and ScoreSet. -/
theorem C5_roundtrip_witness :
    validRowB (build_new_row ⟨2024, 1, 2, 3, 4, 5⟩ "BTC/CHF".toList "hold".toList
      "coingecko-auto".toList ⟨1 / 2, 1 / 2, 0, 0⟩) = true ∧
    load_and_clean_csv (some (write_signals_csv none
      (build_new_row ⟨2024, 1, 2, 3, 4, 5⟩ "BTC/CHF".toList "hold".toList
        "coingecko-auto".toList ⟨1 / 2, 1 / 2, 0, 0⟩))) =
      load_and_clean_csv none ++ [build_new_row ⟨2024, 1, 2, 3, 4, 5⟩ "BTC/CHF".toList
        "hold".toList "coingecko-auto".toList ⟨1 / 2, 1 / 2, 0, 0⟩] :=
  C5_roundtrip ⟨2024, 1, 2, 3, 4, 5⟩ "BTC/CHF".toList "hold".toList
    "coingecko-auto".toList ⟨1 / 2, 1 / 2, 0, 0⟩ none (by decide)

/-- C4 counterexample: a monthly file whose sanitized rows already contain
two valid records with the same dedup key; appending another record with
that key leaves two stored rows with the key, not exactly one. -/
theorem C4_counterexample :
    monthKey ["2024-01-01 00:00:00".toList, "BTC/CHF".toList, "hold".toList, "0".toList,
        "0.9".toList, "c".toList, "0.5".toList, "0.5".toList, "0.5".toList, "0.5".toList] ∈
      (load_and_clean_csv (some [HEADER,
        ["2024-01-01 00:00:00".toList, "BTC/CHF".toList, "hold".toList, "0".toList,
          "0.5".toList, "a".toList, "0.1".toList, "0.2".toList, "0.3".toList, "0.4".toList],
        ["2024-01-01 00:00:00".toList, "BTC/CHF".toList, "hold".toList, "0".toList,
          "0.5".toList, "b".toList, "0.1".toList, "0.2".toList, "0.3".toList,
          "0.4".toList]])).map monthKey ∧
    ¬ ((write_month_rows (some [HEADER,
        ["2024-01-01 00:00:00".toList, "BTC/CHF".toList, "hold".toList, "0".toList,
          "0.5".toList, "a".toList, "0.1".toList, "0.2".toList, "0.3".toList, "0.4".toList],
        ["2024-01-01 00:00:00".toList, "BTC/CHF".toList, "hold".toList, "0".toList,
          "0.5".toList, "b".toList, "0.1".toList, "0.2".toList, "0.3".toList, "0.4".toList]])
        ["2024-01-01 00:00:00".toList, "BTC/CHF".toList, "hold".toList, "0".toList,
          "0.9".toList, "c".toList, "0.5".toList, "0.5".toList, "0.5".toList,
          "0.5".toList]).drop 1).countP
      (fun r => monthKey r ==
        monthKey ["2024-01-01 00:00:00".toList, "BTC/CHF".toList, "hold".toList, "0".toList,
          "0.9".toList, "c".toList, "0.5".toList, "0.5".toList, "0.5".toList,
          "0.5".toList]) = 1 := by
  decide

/-- C4 amended: appending a record whose dedup key already occurs among the
sanitized existing rows adds no row (the file is rewritten with exactly the
sanitized prior rows, so the number of rows carrying that key is unchanged);
and the monthly append is idempotent: appending the same record twice yields
the same file contents as appending it once. -/
theorem C4_monthly_dedup_amended (f : Option (List (List Str))) (nr : List Str) :
    (monthKey nr ∈ (load_and_clean_csv f).map monthKey →
      write_month_rows f nr = write_csv (load_and_clean_csv f)) ∧
    write_month_rows (some (write_month_rows f nr)) nr = write_month_rows f nr := by
  constructor
  · exact fun h => write_month_eq_pos h
  · by_cases hk : monthKey nr ∈ (load_and_clean_csv f).map monthKey
    · have hload : load_and_clean_csv (some (write_csv (load_and_clean_csv f))) =
          load_and_clean_csv f := by
        rw [load_write, load_filter_idem]
      rw [write_month_eq_pos hk, write_month_eq_pos (by rw [hload]; exact hk), hload]
    · rw [write_month_eq_neg hk]
      have hload2 : load_and_clean_csv (some (write_csv (load_and_clean_csv f ++ [nr]))) =
          load_and_clean_csv f ++ List.filter validRowB [nr] := by
        rw [load_write, List.filter_append, load_filter_idem]
      by_cases hv : validRowB nr = true
      · have hl : load_and_clean_csv (some (write_csv (load_and_clean_csv f ++ [nr]))) =
            load_and_clean_csv f ++ [nr] := by
          rw [hload2]
          simp [hv]
        rw [write_month_eq_pos (by rw [hl]; simp), hl]
      · have hl : load_and_clean_csv (some (write_csv (load_and_clean_csv f ++ [nr]))) =
            load_and_clean_csv f := by
          rw [hload2]
          simp [List.filter_cons, hv]
        rw [write_month_eq_neg (by rw [hl]; exact hk), hl]

/-- C4 witness: a key already present in a concrete monthly file leaves the
file unchanged, and the double append equals the single append. -/
theorem C4_monthly_dedup_amended_witness :
    write_month_rows (some [HEADER,
        ["2024-01-02 00:00:00".toList, "BTC/CHF".toList, "hold".toList, "0".toList,
          "0.5".toList, "a".toList, "0.1".toList, "0.2".toList, "0.3".toList, "0.4".toList]])
      ["2024-01-02 00:00:00".toList, "BTC/CHF".toList, "hold".toList, "0".toList,
        "0.9".toList, "c".toList, "0.5".toList, "0.5".toList, "0.5".toList, "0.5".toList] =
      write_csv (load_and_clean_csv (some [HEADER,
        ["2024-01-02 00:00:00".toList, "BTC/CHF".toList, "hold".toList, "0".toList,
          "0.5".toList, "a".toList, "0.1".toList, "0.2".toList, "0.3".toList,
          "0.4".toList]])) ∧
    write_month_rows (some (write_month_rows (some [HEADER,
        ["2024-01-02 00:00:00".toList, "BTC/CHF".toList, "hold".toList, "0".toList,
          "0.5".toList, "a".toList, "0.1".toList, "0.2".toList, "0.3".toList, "0.4".toList]])
      ["2024-01-02 00:00:00".toList, "BTC/CHF".toList, "hold".toList, "0".toList,
        "0.9".toList, "c".toList, "0.5".toList, "0.5".toList, "0.5".toList, "0.5".toList]))
      ["2024-01-02 00:00:00".toList, "BTC/CHF".toList, "hold".toList, "0".toList,
        "0.9".toList, "c".toList, "0.5".toList, "0.5".toList, "0.5".toList, "0.5".toList] =
      write_month_rows (some [HEADER,
        ["2024-01-02 00:00:00".toList, "BTC/CHF".toList, "hold".toList, "0".toList,
          "0.5".toList, "a".toList, "0.1".toList, "0.2".toList, "0.3".toList, "0.4".toList]])
      ["2024-01-02 00:00:00".toList, "BTC/CHF".toList, "hold".toList, "0".toList,
        "0.9".toList, "c".toList, "0.5".toList, "0.5".toList, "0.5".toList, "0.5".toList] :=
  ⟨(C4_monthly_dedup_amended (some [HEADER,
      ["2024-01-02 00:00:00".toList, "BTC/CHF".toList, "hold".toList, "0".toList,
        "0.5".toList, "a".toList, "0.1".toList, "0.2".toList, "0.3".toList, "0.4".toList]])
      ["2024-01-02 00:00:00".toList, "BTC/CHF".toList, "hold".toList, "0".toList,
        "0.9".toList, "c".toList, "0.5".toList, "0.5".toList, "0.5".toList,
        "0.5".toList]).1 (by decide),
    (C4_monthly_dedup_amended (some [HEADER,
      ["2024-01-02 00:00:00".toList, "BTC/CHF".toList, "hold".toList, "0".toList,
        "0.5".toList, "a".toList, "0.1".toList, "0.2".toList, "0.3".toList, "0.4".toList]])
      ["2024-01-02 00:00:00".toList, "BTC/CHF".toList, "hold".toList, "0".toList,
        "0.9".toList, "c".toList, "0.5".toList, "0.5".toList, "0.5".toList,
        "0.5".toList]).2⟩

/-- C9 counterexample: the monthly file path is derived from a fresh clock
reading, not from the row; when the clock crosses a month boundary between
building the row and writing the monthly file, the year-month in the chosen
path differs from the year-month of the timestamp stored in field 1. -/
theorem C9_counterexample :
    validTime ⟨2024, 1, 31, 23, 59, 59⟩ = true ∧
    validTime ⟨2024, 2, 1, 0, 0, 0⟩ = true ∧
    monthPath ⟨2024, 2, 1, 0, 0, 0⟩ ≠
      "reports/".toList ++
        ((build_new_row ⟨2024, 1, 31, 23, 59, 59⟩ "BTC/CHF".toList "hold".toList
          "coingecko-auto".toList ⟨0, 0, 0, 0⟩).getD 0 []).take 7 ++ ".csv".toList := by
  refine ⟨by decide, by decide, ?_⟩
  intro h
  exact absurd h (by decide)

/-- C9 amended: `write_month_csv` derives `reports/YYYY-MM.csv` from the
clock reading at the moment of its own call; for representable clock
readings, the year-month in the path equals the year-month of the row's
field-1 timestamp if and only if that call happens in the same UTC year and
month in which the row was built. -/
theorem C9_month_path_amended (now1 now2 : UTCTime) (pair action note : Str)
    (s : Scores) (h1 : validTime now1 = true) (h2 : validTime now2 = true) :
    (monthPath now2 = "reports/".toList ++
      ((build_new_row now1 pair action note s).getD 0 []).take 7 ++ ".csv".toList) ↔
    (now2.year = now1.year ∧ now2.month = now1.month) := by
  obtain ⟨_, hy1b, _, hm1b, _, _, _, _, _⟩ := validTime_spec h1
  obtain ⟨_, hy2b, _, hm2b, _, _, _, _, _⟩ := validTime_spec h2
  have hrow : (build_new_row now1 pair action note s).getD 0 [] = utc_now_iso now1 := rfl
  have htake : (utc_now_iso now1).take 7 = ymStr now1 := rfl
  rw [hrow, htake]
  constructor
  · intro hE
    unfold monthPath at hE
    have hA : "reports/".toList ++ ymStr now2 = "reports/".toList ++ ymStr now1 :=
      List.append_cancel_right hE
    have hym : ymStr now2 = ymStr now1 := List.append_cancel_left hA
    simp only [ymStr, pad4, pad2, List.cons_append, List.nil_append, List.cons.injEq,
      and_true] at hym
    obtain ⟨e1, e2, e3, e4, _, e5, e6⟩ := hym
    have d1 := digitChar_inj (Nat.mod_lt _ (by norm_num)) (Nat.mod_lt _ (by norm_num)) e1
    have d2 := digitChar_inj (Nat.mod_lt _ (by norm_num)) (Nat.mod_lt _ (by norm_num)) e2
    have d3 := digitChar_inj (Nat.mod_lt _ (by norm_num)) (Nat.mod_lt _ (by norm_num)) e3
    have d4 := digitChar_inj (Nat.mod_lt _ (by norm_num)) (Nat.mod_lt _ (by norm_num)) e4
    have d5 := digitChar_inj (Nat.mod_lt _ (by norm_num)) (Nat.mod_lt _ (by norm_num)) e5
    have d6 := digitChar_inj (Nat.mod_lt _ (by norm_num)) (Nat.mod_lt _ (by norm_num)) e6
    constructor
    · omega
    · omega
  · rintro ⟨hy, hm⟩
    unfold monthPath ymStr
    rw [hy, hm]

/-- C9 witness: at two concrete clock readings within the same month, both
directions of the characterisation apply: the path's year-month matches the
row's timestamp, and conversely. -/
theorem C9_month_path_amended_witness :
    (monthPath ⟨2024, 1, 31, 23, 59, 58⟩ = "reports/".toList ++
      ((build_new_row ⟨2024, 1, 31, 23, 59, 57⟩ "p".toList "a".toList "n".toList
        ⟨0, 0, 0, 0⟩).getD 0 []).take 7 ++ ".csv".toList) ↔
    ((UTCTime.mk 2024 1 31 23 59 58).year = (UTCTime.mk 2024 1 31 23 59 57).year ∧
      (UTCTime.mk 2024 1 31 23 59 58).month = (UTCTime.mk 2024 1 31 23 59 57).month) :=
  C9_month_path_amended ⟨2024, 1, 31, 23, 59, 57⟩ ⟨2024, 1, 31, 23, 59, 58⟩
    "p".toList "a".toList "n".toList ⟨0, 0, 0, 0⟩ (by decide) (by decide)

/-- C10 counterexample: the first line is discarded unconditionally, but a
valid first row is not always absent from the result: if an identical row
also occurs later in the file, it is present in the returned sequence. -/
theorem C10_counterexample :
    validRowB ["2024-03-01 00:00:00".toList, "BTC/CHF".toList, "hold".toList, "0".toList,
      "0.5".toList, "n".toList, "0.1".toList, "0.2".toList, "0.3".toList, "0.4".toList] = true ∧
    ["2024-03-01 00:00:00".toList, "BTC/CHF".toList, "hold".toList, "0".toList,
      "0.5".toList, "n".toList, "0.1".toList, "0.2".toList, "0.3".toList, "0.4".toList] ∈
      load_and_clean_csv (some [
        ["2024-03-01 00:00:00".toList, "BTC/CHF".toList, "hold".toList, "0".toList,
          "0.5".toList, "n".toList, "0.1".toList, "0.2".toList, "0.3".toList, "0.4".toList],
        ["2024-03-01 00:00:00".toList, "BTC/CHF".toList, "hold".toList, "0".toList,
          "0.5".toList, "n".toList, "0.1".toList, "0.2".toList, "0.3".toList,
          "0.4".toList]]) := by
  decide

/-- C10 amended: `load_and_clean_csv` discards the first line unconditionally
(the result is the sanitization of the remaining lines alone), so a valid
first row is absent from the result whenever no identical row occurs among
the later lines. -/
theorem C10_first_line_amended (l : List Str) (rest : List (List Str)) :
    load_and_clean_csv (some (l :: rest)) = rest.filter validRowB ∧
    (validRowB l = true → l ∉ rest → l ∉ load_and_clean_csv (some (l :: rest))) := by
  refine ⟨rfl, ?_⟩
  intro _ hnot hmem
  exact hnot (List.mem_of_mem_filter hmem)

/-- C10 witness: a valid first data row of a concrete two-line file is
dropped. -/
theorem C10_first_line_amended_witness :
    load_and_clean_csv (some [
      ["2024-03-02 00:00:00".toList, "BTC/CHF".toList, "hold".toList, "0".toList,
        "0.5".toList, "n".toList, "0.1".toList, "0.2".toList, "0.3".toList, "0.4".toList],
      ["y".toList]]) = List.filter validRowB [["y".toList]] ∧
    ["2024-03-02 00:00:00".toList, "BTC/CHF".toList, "hold".toList, "0".toList,
      "0.5".toList, "n".toList, "0.1".toList, "0.2".toList, "0.3".toList, "0.4".toList] ∉
      load_and_clean_csv (some [
        ["2024-03-02 00:00:00".toList, "BTC/CHF".toList, "hold".toList, "0".toList,
          "0.5".toList, "n".toList, "0.1".toList, "0.2".toList, "0.3".toList, "0.4".toList],
        ["y".toList]]) :=
  ⟨(C10_first_line_amended
      ["2024-03-02 00:00:00".toList, "BTC/CHF".toList, "hold".toList, "0".toList,
        "0.5".toList, "n".toList, "0.1".toList, "0.2".toList, "0.3".toList, "0.4".toList]
      [["y".toList]]).1,
    (C10_first_line_amended
      ["2024-03-02 00:00:00".toList, "BTC/CHF".toList, "hold".toList, "0".toList,
        "0.5".toList, "n".toList, "0.1".toList, "0.2".toList, "0.3".toList, "0.4".toList]
      [["y".toList]]).2 (by decide) (by decide)⟩

end BuildScores
